import Mathlib

/-!
Verification of the PLC-Agent ladder-logic indexing/comparison core
(`src/PlainLogic`): the rung splitter, token classifier and digest builder
(`likeaversion.py`), the alternative splitter (`goodlad.py`), the revision
comparator (`likeaversion_compare.py`) and the alignment index builder
(`rung_index.py`), embedded shallowly in Lean.

Modelling conventions:
* Python strings are Lean `String`s, but all character-level operations
  (`str.split()`, `str.strip()`, slicing, `in`, `startswith`/`endswith`)
  are re-implemented over `String.data` by structural recursion so that
  every definition evaluates inside the kernel.
* Python dicts become insertion-ordered association lists
  (`List (K × V)`); `d[k] = v` is `dictInsert` (replace-in-place or
  append), `d.get(k)` is `lookupA`, `defaultdict` access is `updGet`.
  Python sets become duplicate-free lists built with `setAdd` and are
  sorted on serialization, as in the source.
* JSON documents are structures whose optional keys are `Option` fields
  (`.get(k)` returning `None` on a missing key is `Option`); reading a
  *required* key that a producer may omit is modelled in `Except`, a
  raised `KeyError`/`json` exception being `.error`.
* The filesystem is a pure map `Path → Option document`; `none` stands
  for a missing, unreadable or malformed file.
* `hashlib.sha1(...).hexdigest()` is implemented bit-for-bit (`sha1hex`)
  over byte lists, with UTF-8 encoding of the token strings.
-/

set_option maxRecDepth 40000

namespace PLC

/-! ### Python string primitives over character lists -/

/-- One step of `str.split()`: split on runs of whitespace, no empty pieces.
`acc` holds the current (reversed) word. -/
def pySplitAux : List Char → List Char → List String
  | [], acc => if acc = [] then [] else [String.mk acc.reverse]
  | c :: cs, acc =>
    if c.isWhitespace then
      (if acc = [] then pySplitAux cs [] else String.mk acc.reverse :: pySplitAux cs [])
    else pySplitAux cs (c :: acc)

/-- Python `str.split()` with no argument. -/
def pySplit (s : String) : List String := pySplitAux s.data []

/-- Drop leading whitespace characters. -/
def dropLeadingWs : List Char → List Char
  | [] => []
  | c :: cs => if c.isWhitespace then dropLeadingWs cs else c :: cs

/-- Python `str.strip()` with no argument. -/
def pyStrip (s : String) : String :=
  String.mk ((dropLeadingWs (dropLeadingWs s.data).reverse).reverse)

/-- Python `s[:n]` for a nonnegative `n`. -/
def strTake (s : String) (n : Nat) : String := String.mk (s.data.take n)

/-- Python `s.startswith(pre)`. -/
def pyStartsWith (s pre : String) : Bool := pre.data.isPrefixOf s.data

/-- Python `s.endsWith(suf)` (the method is spelled `endswith`). -/
def pyEndsWith (s suf : String) : Bool := suf.data.isSuffixOf s.data

/-- Lexicographic (code-point) comparison of character lists, the order
Python uses when sorting strings. -/
def charListLe : List Char → List Char → Bool
  | [], _ => true
  | _ :: _, [] => false
  | c :: cs, d :: ds => if c = d then charListLe cs ds else decide (c.toNat < d.toNat)

/-- Python's `<=` on strings, as a proposition. -/
def strLe (a b : String) : Prop := charListLe a.data b.data = true

instance : DecidableRel strLe := fun a b => instDecidableEqBool (charListLe a.data b.data) true

/-- Python `sorted` on a list of strings (a stable sort by code points;
`insertionSort` is stable, like the sort in the runtime). -/
def sortStr (l : List String) : List String := l.insertionSort strLe

/-- Decimal digit or lowercase hex digit character for `n < 16`. -/
def hexDigit (n : Nat) : Char := if n < 10 then Char.ofNat (48 + n) else Char.ofNat (87 + n)

/-- Decimal digits of `n`, most significant first; `fuel ≥` digit count. -/
def natDigits : Nat → Nat → List Char
  | 0, _ => []
  | fuel + 1, n => if n < 10 then [hexDigit n] else natDigits fuel (n / 10) ++ [hexDigit (n % 10)]

/-- Python `str(n)` for a natural number. -/
def natStr (n : Nat) : String := String.mk (natDigits (n + 1) n)

/-- Python `f"{idx:04d}"` for a natural number: zero-pad to width 4. -/
def pad4 (n : Nat) : String :=
  let s := natStr n
  String.mk (List.replicate (4 - s.data.length) '0' ++ s.data)

/-! ### Association-list operations standing for Python dicts -/

/-- Python `d.get(k)` on an insertion-ordered dict. -/
def lookupA {K V : Type} [DecidableEq K] : List (K × V) → K → Option V
  | [], _ => none
  | (a, v) :: rest, k => if a = k then some v else lookupA rest k

/-- Python `d[k] = v`: replace the value in place if the key is present,
else append the pair (dicts preserve insertion order). -/
def dictInsert {K V : Type} [DecidableEq K] : List (K × V) → K → V → List (K × V)
  | [], k, v => [(k, v)]
  | (a, w) :: rest, k, v =>
    if a = k then (a, v) :: rest else (a, w) :: dictInsert rest k v

/-- `defaultdict` access-and-update: `f` applied to the stored value, or to
`dflt` when the key is absent (in which case the pair is appended). -/
def updGet {K V : Type} [DecidableEq K] : List (K × V) → K → V → (V → V) → List (K × V)
  | [], k, dflt, f => [(k, f dflt)]
  | (a, w) :: rest, k, dflt, f =>
    if a = k then (a, f w) :: rest else (a, w) :: updGet rest k dflt f

/-- Python `set.add` on a duplicate-free list. -/
def setAdd (l : List String) (x : String) : List String := if x ∈ l then l else l ++ [x]

theorem lookupA_updGet {K V : Type} [DecidableEq K] (m : List (K × V)) (k k' : K) (dflt : V)
    (f : V → V) :
    lookupA (updGet m k dflt f) k'
      = if k' = k then some (f ((lookupA m k).getD dflt)) else lookupA m k' := by
  induction m with
  | nil =>
    by_cases h : k' = k
    · subst h; simp [updGet, lookupA]
    · simp [updGet, lookupA, h, Ne.symm h]
  | cons p rest ih =>
    obtain ⟨a, w⟩ := p
    by_cases hak : a = k <;> by_cases hak' : a = k' <;>
      simp_all [updGet, lookupA, eq_comm]

theorem lookupA_isSome_of_mem_keys {K V : Type} [DecidableEq K] (m : List (K × V)) (k : K)
    (h : k ∈ m.map Prod.fst) : (lookupA m k).isSome := by
  induction m with
  | nil => simp at h
  | cons p rest ih =>
    obtain ⟨a, w⟩ := p
    by_cases hak : a = k
    · simp [lookupA, hak]
    · simp only [List.map_cons, List.mem_cons] at h
      rcases h with h | h
      · exact absurd h.symm hak
      · simpa [lookupA, hak] using ih h

theorem lookupA_mem {K V : Type} [DecidableEq K] (m : List (K × V)) (k : K) (v : V)
    (h : lookupA m k = some v) : (k, v) ∈ m := by
  induction m with
  | nil => simp [lookupA] at h
  | cons p rest ih =>
    obtain ⟨a, w⟩ := p
    by_cases hak : a = k
    · subst hak
      simp [lookupA] at h
      simp [h]
    · simp [lookupA, hak] at h
      exact List.mem_cons_of_mem _ (ih h)

theorem mem_dictInsert {K V : Type} [DecidableEq K] (m : List (K × V)) (k : K) (v : V) (p : K × V)
    (h : p ∈ dictInsert m k v) : p = (k, v) ∨ p ∈ m := by
  induction m with
  | nil => simpa [dictInsert] using h
  | cons q rest ih =>
    obtain ⟨a, w⟩ := q
    by_cases hak : a = k
    · subst hak
      simp [dictInsert] at h
      rcases h with h | h
      · exact Or.inl (by simp [h])
      · exact Or.inr (List.mem_cons_of_mem _ h)
    · simp [dictInsert, hak] at h
      rcases h with h | h
      · exact Or.inr (by simp [h])
      · rcases ih h with h' | h'
        · exact Or.inl h'
        · exact Or.inr (List.mem_cons_of_mem _ h')

/-! ### SHA-1 (`hashlib.sha1(...).hexdigest()`), over byte lists -/

/-- UTF-8 encoding of one character, as byte values. -/
def utf8Encode (c : Char) : List Nat :=
  let n := c.toNat
  if n < 128 then [n]
  else if n < 2048 then [192 + n / 64, 128 + n % 64]
  else if n < 65536 then [224 + n / 4096, 128 + (n / 64) % 64, 128 + n % 64]
  else [240 + n / 262144, 128 + (n / 4096) % 64, 128 + (n / 64) % 64, 128 + n % 64]

/-- Python `s.encode("utf-8")` as a list of byte values. -/
def strBytes (s : String) : List Nat := s.data.flatMap utf8Encode

/-- Rotate a 32-bit word left by `n` bits. -/
def rotl (n x : Nat) : Nat := (x % 2 ^ (32 - n)) * 2 ^ n + x / 2 ^ (32 - n)

/-- 64-bit big-endian byte encoding. -/
def be64 (n : Nat) : List Nat :=
  [n / 2 ^ 56 % 256, n / 2 ^ 48 % 256, n / 2 ^ 40 % 256, n / 2 ^ 32 % 256,
   n / 2 ^ 24 % 256, n / 2 ^ 16 % 256, n / 2 ^ 8 % 256, n % 256]

/-- SHA-1 message padding: `0x80`, zeros to 56 mod 64, 64-bit bit length. -/
def sha1pad (msg : List Nat) : List Nat :=
  let len := msg.length
  msg ++ [128] ++ List.replicate ((119 - len % 64) % 64) 0 ++ be64 (8 * len)

/-- Big-endian 32-bit words of a byte list. -/
def toWords : List Nat → List Nat
  | b0 :: b1 :: b2 :: b3 :: rest => (b0 * 2 ^ 24 + b1 * 2 ^ 16 + b2 * 2 ^ 8 + b3) :: toWords rest
  | _ => []

/-- Extend the 16-word schedule by `k` further words. -/
def sha1extend (ws : List Nat) : Nat → List Nat
  | 0 => ws
  | k + 1 =>
    let i := ws.length
    let wi := rotl 1 ((ws.getD (i - 3) 0) ^^^ (ws.getD (i - 8) 0) ^^^
                      (ws.getD (i - 14) 0) ^^^ (ws.getD (i - 16) 0))
    sha1extend (ws ++ [wi]) k

/-- SHA-1 round function for round `i`. -/
def sha1f (i b c d : Nat) : Nat :=
  if i < 20 then (b &&& c) ||| ((4294967295 - b) &&& d)
  else if i < 40 then b ^^^ c ^^^ d
  else if i < 60 then (b &&& c) ||| (b &&& d) ||| (c &&& d)
  else b ^^^ c ^^^ d

/-- SHA-1 round constant for round `i`. -/
def sha1k (i : Nat) : Nat :=
  if i < 20 then 1518500249
  else if i < 40 then 1859775393
  else if i < 60 then 2400959708
  else 3395469782

/-- The 80 compression rounds, starting at round `i`. -/
def sha1rounds (i : Nat) (st : Nat × Nat × Nat × Nat × Nat) :
    List Nat → Nat × Nat × Nat × Nat × Nat
  | [] => st
  | w :: ws =>
    match st with
    | (a, b, c, d, e) =>
      sha1rounds (i + 1)
        ((rotl 5 a + sha1f i b c d + e + sha1k i + w) % 2 ^ 32, a, rotl 30 b, c, d) ws

/-- Split a byte list into 64-byte chunks (`fuel`-driven so it computes). -/
def chunksAux : Nat → List Nat → List (List Nat)
  | 0, _ => []
  | _, [] => []
  | fuel + 1, x :: xs => ((x :: xs).take 64) :: chunksAux fuel ((x :: xs).drop 64)

/-- 64-byte chunks of a byte list. -/
def chunks64 (l : List Nat) : List (List Nat) := chunksAux l.length l

/-- Process one 512-bit chunk. -/
def sha1core (h : Nat × Nat × Nat × Nat × Nat) (chunk : List Nat) :
    Nat × Nat × Nat × Nat × Nat :=
  match h with
  | (h0, h1, h2, h3, h4) =>
    match sha1rounds 0 (h0, h1, h2, h3, h4) (sha1extend (toWords chunk) 64) with
    | (a, b, c, d, e) =>
      ((h0 + a) % 2 ^ 32, (h1 + b) % 2 ^ 32, (h2 + c) % 2 ^ 32,
       (h3 + d) % 2 ^ 32, (h4 + e) % 2 ^ 32)

/-- Lowercase hex rendering of a 32-bit word, 8 digits. -/
def hex8 (n : Nat) : List Char := (List.range 8).map (fun i => hexDigit (n / 2 ^ (4 * (7 - i)) % 16))

/-- `hashlib.sha1(msg).hexdigest()`: the 40-hex-character SHA-1 digest. -/
def sha1hex (msg : List Nat) : String :=
  match (chunks64 (sha1pad msg)).foldl sha1core
      (1732584193, 4023233417, 2562383102, 271733878, 3285377520) with
  | (h0, h1, h2, h3, h4) => String.mk (hex8 h0 ++ hex8 h1 ++ hex8 h2 ++ hex8 h3 ++ hex8 h4)

/-! ### `likeaversion.py`: splitter, classifier, digest builder -/

/-- `likeaversion._hash_tokens`: SHA-1 over the tokens joined with a `\x00`
separator after each token, truncated to the first 8 hex characters. -/
def _hash_tokens (tokens : List String) : String :=
  strTake (sha1hex (tokens.flatMap (fun t => strBytes t ++ [0]))) 8

/-- `likeaversion._tokenize`: `rung_text.strip().split()`. -/
def _tokenize (rung_text : String) : List String := pySplit (pyStrip rung_text)

/-- `likeaversion._split_rungs` loop body. `cur = none` means no open
accumulator (Python `cur is None`). A rung equal to the single token `END`
is dropped when its `EOR` is reached. -/
def splitRungsAux : List String → Option (List String) → List (List String)
  | [], _ => []
  | tok :: ts, cur =>
    if tok = "SOR" then splitRungsAux ts (some [])
    else if tok = "EOR" then
      match cur with
      | some c => if c = ["END"] then splitRungsAux ts none else c :: splitRungsAux ts none
      | none => splitRungsAux ts none
    else
      match cur with
      | some c => splitRungsAux ts (some (c ++ [tok]))
      | none => splitRungsAux ts none

/-- `likeaversion._split_rungs`: split raw ladder text into rung strings
using SOR/EOR; drops the single-token `END` rung. -/
def _split_rungs (raw_text : String) : List String :=
  (splitRungsAux (pySplit raw_text) none).map (String.intercalate " ")

/-- `likeaversion._is_addr_token`: contains `:` or `/`, or starts with `#`. -/
def _is_addr_token (t : String) : Bool :=
  t.data.contains ':' || t.data.contains '/' || pyStartsWith t "#"

/-- Result triple of the classifier: structural tokens, parameter (key,
value) pairs, runtime (key, value) pairs. -/
abbrev ClassifyResult := List String × List (String × String) × List (String × String)

/-- The default heuristic branch of `likeaversion._classify_tokens`:
address-ish tokens are parameters, everything else is structural. -/
def classifyDefaultStep (t : String) (res : ClassifyResult) : ClassifyResult :=
  let (s, p, r) := res
  if _is_addr_token t then ("_" :: s, ("GENERIC", t) :: p, r) else (t :: s, p, r)

/-- `likeaversion._classify_tokens`: greedy left-to-right scan; the pattern
`TON <timer> <timebase> <preset> <accum>` (the mnemonic with at least four
following tokens) consumes five tokens, everything else one token through
the address heuristic. -/
def _classify_tokens : List String → ClassifyResult
  | "TON" :: timer :: timebase :: preset :: accum :: rest2 =>
    let (s, p, r) := _classify_tokens rest2
    ("TON" :: "_" :: timebase :: "_" :: "_" :: s,
     ("TON_TIMER", timer) :: ("TON_PRESET", preset) :: p,
     ("TON_ACCUM", accum) :: r)
  | t :: rest => classifyDefaultStep t (_classify_tokens rest)
  | [] => ([], [], [])

/-- One rung of a per-revision index document, as written by
`process_ladder_file`. The two hash fields are `Option` because the
comparator reads them with `.get` from arbitrary JSON; the digest builder
always populates them. -/
structure RungDoc where
  raw : String
  tokens : List String
  structural_tokens : List String
  parameter_tokens : List (String × String)
  runtime_tokens : List (String × String)
  structural_hash : Option String
  parameter_hash : Option String
deriving DecidableEq

/-- One ladder of a per-revision index document. The digest builder only
writes `rungs`; the two ladder-level hash keys it never produces are
`Option` fields read by the comparator with `.get` (absent = `none`). -/
structure LadderDoc where
  ladder_structural_hash : Option String
  ladder_parameter_hash : Option String
  rungs : List (String × RungDoc)
deriving DecidableEq

/-- `likeaversion.process_ladder_file`, applied to the raw text of one
`LAD*.raw.txt` file (the file read itself is outside the model). Rung ids
are `f"{idx:04d}"` by physical order; the parameter signature is hashed as
`"K=V"` strings. -/
def process_ladder_file (raw_text : String) : LadderDoc :=
  let rung_texts := _split_rungs raw_text
  { ladder_structural_hash := none
    ladder_parameter_hash := none
    rungs := ((List.range rung_texts.length).zip rung_texts).map (fun iv =>
      let tokens := _tokenize iv.2
      let res := _classify_tokens tokens
      (pad4 iv.1,
       { raw := iv.2
         tokens := tokens
         structural_tokens := res.1
         parameter_tokens := res.2.1
         runtime_tokens := res.2.2
         structural_hash := some (_hash_tokens res.1)
         parameter_hash :=
           some (_hash_tokens (res.2.1.map (fun kv => kv.1 ++ "=" ++ kv.2))) })) }

/-- A per-revision index document (`likeaversion.json`). `path` is an
`Option` because `likeaversion.run` writes only `location`, `revision` and
`ladders`, while the comparator reads a `path` key unconditionally. -/
structure RevisionDoc where
  location : String
  revision : String
  path : Option String
  ladders : List (String × LadderDoc)
deriving DecidableEq

/-- The document `likeaversion.run` assembles for one revision directory:
`location`/`revision` from the directory layout and one processed ladder
per `LAD*.raw.txt` file (given here as (ladder name, raw text) pairs).
No `path` key is written. -/
def mkRevisionDoc (location revision : String) (ladder_files : List (String × String)) :
    RevisionDoc :=
  { location := location
    revision := revision
    path := none
    ladders := ladder_files.map (fun nf => (nf.1, process_ladder_file nf.2)) }

/-! ### `goodlad.py`: the alternative splitter -/

/-- `goodlad.normalize_lad_text` loop body: `current` starts as an empty
list (not `None`), empty rungs are dropped (`if current:`), and the END
check is on the joined string. -/
def normalizeLadAux : List String → List String → List String
  | [], _ => []
  | tok :: ts, current =>
    if tok = "SOR" then normalizeLadAux ts []
    else if tok = "EOR" then
      (if current ≠ [] then
        (let rung_text := pyStrip (String.intercalate " " current)
         if rung_text ≠ "END" then rung_text :: normalizeLadAux ts []
         else normalizeLadAux ts [])
       else normalizeLadAux ts [])
    else normalizeLadAux ts (current ++ [tok])

/-- `goodlad.normalize_lad_text`. -/
def normalize_lad_text (raw_text : String) : List String :=
  normalizeLadAux (pySplit raw_text) []

/-! ### Classifier lemmas shared by several claims -/

theorem classify_cons_ne (t : String) (rest : List String) (h : t ≠ "TON") :
    _classify_tokens (t :: rest) = classifyDefaultStep t (_classify_tokens rest) := by
  rw [_classify_tokens.eq_def]
  split
  · rename_i heq
    injection heq with h1 _
    exact absurd h1 h
  · rename_i heq
    injection heq with h1 h2
    rw [h1, h2]
  · rename_i heq
    exact absurd heq (List.cons_ne_nil _ _)

/-- Structural image of one token under the default heuristic. -/
def defaultStructural (t : String) : String := if _is_addr_token t then "_" else t

/-- Parameter pairs of one token under the default heuristic. -/
def defaultParams (t : String) : Option (String × String) :=
  if _is_addr_token t then some ("GENERIC", t) else none

theorem classify_append_no_ton (pre xs : List String) (h : "TON" ∉ pre) :
    _classify_tokens (pre ++ xs) =
      (pre.map defaultStructural ++ (_classify_tokens xs).1,
       pre.filterMap defaultParams ++ (_classify_tokens xs).2.1,
       (_classify_tokens xs).2.2) := by
  induction pre with
  | nil => simp
  | cons t pre ih =>
    have ht : t ≠ "TON" := fun hh => h (hh ▸ List.mem_cons_self t pre)
    have h' : "TON" ∉ pre := fun hm => h (List.mem_cons_of_mem _ hm)
    rw [List.cons_append, classify_cons_ne t _ ht, ih h']
    by_cases ha : _is_addr_token t <;>
      simp [classifyDefaultStep, defaultStructural, defaultParams, ha]

/-! ### Claims C2, C3, C9 -/

/-- Claim C2: whenever the classifier reaches the literal mnemonic `TON`
with at least four following tokens (in particular at the first `TON`
occurrence of any such sequence, here after a TON-free prefix `pre`), it
consumes the five tokens `TON <timer> <timebase> <preset> <accum>` and
emits structural `["TON","_",timebase,"_","_"]`, parameter
`[("TON_TIMER",timer),("TON_PRESET",preset)]` and runtime
`[("TON_ACCUM",accum)]` for them; and concretely
`["TON","T4:0","1.0","30","0"]` yields exactly the triple stated in the
spec. -/
theorem claim_C2 :
    (∀ pre timer timebase preset accum rest, "TON" ∉ pre →
      _classify_tokens (pre ++ "TON" :: timer :: timebase :: preset :: accum :: rest) =
        (pre.map defaultStructural ++
           "TON" :: "_" :: timebase :: "_" :: "_" :: (_classify_tokens rest).1,
         pre.filterMap defaultParams ++
           ("TON_TIMER", timer) :: ("TON_PRESET", preset) :: (_classify_tokens rest).2.1,
         ("TON_ACCUM", accum) :: (_classify_tokens rest).2.2))
    ∧ _classify_tokens ["TON", "T4:0", "1.0", "30", "0"] =
        (["TON", "_", "1.0", "_", "_"],
         [("TON_TIMER", "T4:0"), ("TON_PRESET", "30")],
         [("TON_ACCUM", "0")]) := by
  constructor
  · intro pre timer timebase preset accum rest h
    rw [classify_append_no_ton _ _ h]
    simp [_classify_tokens]
  · decide

/-- Claim C2 witness: the general part of `claim_C2` instantiated at the
prefix `["XIC"]`, the spec's TON example and the suffix `["XIO"]`. -/
theorem claim_C2_witness :
    _classify_tokens (["XIC"] ++ "TON" :: "T4:0" :: "1.0" :: "30" :: "0" :: ["XIO"]) =
      (["XIC"].map defaultStructural ++
         "TON" :: "_" :: "1.0" :: "_" :: "_" :: (_classify_tokens ["XIO"]).1,
       ["XIC"].filterMap defaultParams ++
         ("TON_TIMER", "T4:0") :: ("TON_PRESET", "30") :: (_classify_tokens ["XIO"]).2.1,
       ("TON_ACCUM", "0") :: (_classify_tokens ["XIO"]).2.2) :=
  claim_C2.1 ["XIC"] "T4:0" "1.0" "30" "0" ["XIO"] (by decide)

/-- Claim C3: the rung splitter of `likeaversion.py` drops the single-token
`END` sentinel rung: `"SOR END EOR"` yields zero rungs, and
`"SOR A B EOR SOR END EOR SOR C EOR"` yields exactly `["A B", "C"]`. -/
theorem claim_C3 :
    _split_rungs "SOR END EOR" = []
    ∧ _split_rungs "SOR A B EOR SOR END EOR SOR C EOR" = ["A B", "C"] := by
  decide

/-- Claim C9: the two splitter implementations disagree on some raw input:
`likeaversion._split_rungs` keeps the empty rung of `"SOR EOR"` as `""`,
while `goodlad.normalize_lad_text` drops it. -/
theorem claim_C9 :
    ∃ raw_text : String, _split_rungs raw_text ≠ normalize_lad_text raw_text :=
  ⟨"SOR EOR", by decide⟩

/-! ### `likeaversion_compare.py`: the comparator -/

/-- `likeaversion_compare.normalize_ladder_name`: strip a `.clean.txt`
suffix (10 characters). -/
def normalize_ladder_name (name : String) : String :=
  if pyEndsWith name ".clean.txt" then String.mk (name.data.take (name.data.length - 10))
  else name

/-- One rung entry of the comparison report: either the two-key dict made
for a rung missing on one side, or the full drilldown dict. -/
inductive RungReport where
  | missing (rung status : String)
  | full (rung status structural parameters : String)
      (left_structural_hash right_structural_hash
       left_parameter_hash right_parameter_hash : Option String)
      (left_tokens right_tokens : List String)
deriving DecidableEq

/-- The `status` key of a rung entry. -/
def RungReport.status : RungReport → String
  | .missing _ s => s
  | .full _ s _ _ _ _ _ _ _ _ => s

/-- One ladder entry of the comparison report. -/
structure LadderEntry where
  ladder_id : String
  file : String
  status : String
  structural : String
  parameters : String
  left_ladder_struct_hash : Option String
  right_ladder_struct_hash : Option String
  left_ladder_param_hash : Option String
  right_ladder_param_hash : Option String
  rungs : List (String × RungReport)
deriving DecidableEq

/-- The `left`/`right` metadata block of the comparison report. -/
structure SideMeta where
  location : String
  revision : String
  path : String
  program_id : String
  likeaversion_index : String
deriving DecidableEq

/-- The `summary` block of the comparison report. -/
structure Summary where
  status : String
  ladder_differences : Nat
deriving DecidableEq

/-- The comparison report of `compare_revisions`. -/
structure Report where
  left : SideMeta
  right : SideMeta
  summary : Summary
  ladders : List (String × LadderEntry)
deriving DecidableEq

/-- The rung entry built inside the drilldown loop for one `rung_id`. -/
def rungReportFor (left_rungs right_rungs : List (String × RungDoc)) (rung_id : String) :
    RungReport :=
  match lookupA left_rungs rung_id, lookupA right_rungs rung_id with
  | none, _ => .missing rung_id "missing_left"
  | some _, none => .missing rung_id "missing_right"
  | some lr, some rr =>
    let structural := if lr.structural_hash ≠ rr.structural_hash then "different" else "same"
    let parameters := if lr.parameter_hash ≠ rr.parameter_hash then "different" else "same"
    let status := if structural ≠ "same" ∨ parameters ≠ "same" then "different" else "identical"
    .full rung_id status structural parameters lr.structural_hash rr.structural_hash
      lr.parameter_hash rr.parameter_hash lr.tokens rr.tokens

/-- The rung drilldown of one ladder entry: union of the two rung-id sets,
sorted; missing-side entries are always kept, full entries only when
`include_all_rungs` or the rung differs. -/
def rungDrilldown (l r : Option LadderDoc) (include_all_rungs : Bool) :
    List (String × RungReport) :=
  let left_rungs := (l.map LadderDoc.rungs).getD []
  let right_rungs := (r.map LadderDoc.rungs).getD []
  let all_rungs := sortStr ((left_rungs.map Prod.fst ++ right_rungs.map Prod.fst).dedup)
  all_rungs.foldl (fun acc rung_id =>
    let e := rungReportFor left_rungs right_rungs rung_id
    match e with
    | .missing _ _ => dictInsert acc rung_id e
    | .full _ status _ _ _ _ _ _ _ _ =>
      if include_all_rungs || status ≠ "identical" then dictInsert acc rung_id e else acc) []

/-- The ladder entry built for one `ladder_file` key of the union:
`missing_left`/`missing_right` when a side lacks the ladder, else the
ladder-level hash comparison (`.get` of the two `ladder_*_hash` keys),
structural difference taking precedence; the drilldown runs when
`include_all_rungs` or the entry is not `identical`. -/
def ladEntryFor (left_ladders right_ladders : List (String × LadderDoc))
    (include_all_rungs : Bool) (ladder_file : String) : LadderEntry :=
  let ladder_id := normalize_ladder_name ladder_file
  match lookupA left_ladders ladder_file, lookupA right_ladders ladder_file with
  | none, r =>
    { ladder_id := ladder_id, file := ladder_file, status := "missing_left"
      structural := "same", parameters := "same"
      left_ladder_struct_hash := none, right_ladder_struct_hash := none
      left_ladder_param_hash := none, right_ladder_param_hash := none
      rungs := rungDrilldown none r include_all_rungs }
  | some lv, none =>
    { ladder_id := ladder_id, file := ladder_file, status := "missing_right"
      structural := "same", parameters := "same"
      left_ladder_struct_hash := none, right_ladder_struct_hash := none
      left_ladder_param_hash := none, right_ladder_param_hash := none
      rungs := rungDrilldown (some lv) none include_all_rungs }
  | some lv, some rv =>
    let sp : String × String × String :=
      if lv.ladder_structural_hash ≠ rv.ladder_structural_hash then
        ("logic_difference", "different", "same")
      else if lv.ladder_parameter_hash ≠ rv.ladder_parameter_hash then
        ("parameter_difference", "same", "different")
      else ("identical", "same", "same")
    { ladder_id := ladder_id, file := ladder_file, status := sp.1
      structural := sp.2.1, parameters := sp.2.2
      left_ladder_struct_hash := lv.ladder_structural_hash
      right_ladder_struct_hash := rv.ladder_structural_hash
      left_ladder_param_hash := lv.ladder_parameter_hash
      right_ladder_param_hash := rv.ladder_parameter_hash
      rungs := if include_all_rungs || sp.1 ≠ "identical" then
          rungDrilldown (some lv) (some rv) include_all_rungs
        else [] }

/-- `sorted(set(left_ladders) | set(right_ladders))`: the sorted union of
the ladder keys of the two documents. -/
def allLadderFiles (left_ladders right_ladders : List (String × LadderDoc)) : List String :=
  sortStr ((left_ladders.map Prod.fst ++ right_ladders.map Prod.fst).dedup)

/-- One iteration of the comparator's ladder loop: flip the summary to
`FAIL` and bump `ladder_differences` on a non-identical entry, and store
the entry under its normalized ladder id. -/
def compareStep (left_ladders right_ladders : List (String × LadderDoc))
    (include_all_rungs : Bool) (rep : Report) (ladder_file : String) : Report :=
  let entry := ladEntryFor left_ladders right_ladders include_all_rungs ladder_file
  { rep with
    summary :=
      if entry.status ≠ "identical" then
        { status := "FAIL", ladder_differences := rep.summary.ladder_differences + 1 }
      else rep.summary
    ladders := dictInsert rep.ladders (normalize_ladder_name ladder_file) entry }

/-- The report skeleton `compare_revisions` builds before its ladder loop:
header blocks for both sides, summary `PASS`/`0`, no ladders yet. -/
def initReport (left_idx right_idx : RevisionDoc) (lpath rpath lp rp : String) : Report :=
  { left := { location := left_idx.location, revision := left_idx.revision, path := lpath
              program_id := left_idx.location ++ "/" ++ left_idx.revision
              likeaversion_index := lp }
    right := { location := right_idx.location, revision := right_idx.revision, path := rpath
               program_id := right_idx.location ++ "/" ++ right_idx.revision
               likeaversion_index := rp }
    summary := { status := "PASS", ladder_differences := 0 }
    ladders := [] }

/-- `likeaversion_compare.compare_revisions`. Reading the `path` key of
either document raises `KeyError` (the `.error` case) when the producer
did not write it; otherwise the report is folded over the sorted union of
ladder keys, starting from `PASS`/`0`. -/
def compare_revisions (left_idx right_idx : RevisionDoc)
    (left_index_path right_index_path : String) (include_all_rungs : Bool) :
    Except String Report :=
  match left_idx.path, right_idx.path with
  | some lpath, some rpath =>
    .ok ((allLadderFiles left_idx.ladders right_idx.ladders).foldl
      (compareStep left_idx.ladders right_idx.ladders include_all_rungs)
      (initReport left_idx right_idx lpath rpath left_index_path right_index_path))
  | _, _ => .error "KeyError: path"

/-- The ladder-entry list of a comparator result, `[]` on a raised error. -/
def reportLadders : Except String Report → List (String × LadderEntry)
  | .ok rep => rep.ladders
  | .error _ => []

/-- Observable outcome of a comparator run: `summary.status`,
`summary.ladder_differences` and the per-ladder statuses (`none` on a
raised error). -/
def reportView : Except String Report → Option (String × Nat × List (String × String))
  | .ok rep =>
    some (rep.summary.status, rep.summary.ladder_differences,
      rep.ladders.map (fun e => (e.1, e.2.status)))
  | .error _ => none

/-! ### Comparator lemmas -/

theorem compare_fold_summary (lls rls : List (String × LadderDoc)) (inc : Bool)
    (names : List String) (rep : Report) :
    ((names.foldl (compareStep lls rls inc) rep).summary.status
        = if names.any (fun n => decide ((ladEntryFor lls rls inc n).status ≠ "identical"))
          then "FAIL" else rep.summary.status)
    ∧ (names.foldl (compareStep lls rls inc) rep).summary.ladder_differences
        = rep.summary.ladder_differences
          + names.countP (fun n => decide ((ladEntryFor lls rls inc n).status ≠ "identical")) := by
  induction names generalizing rep with
  | nil => simp
  | cons n ns ih =>
    have h1 := (ih (compareStep lls rls inc rep n)).1
    have h2 := (ih (compareStep lls rls inc rep n)).2
    simp only [List.foldl_cons, List.any_cons, List.countP_cons]
    by_cases hn : (ladEntryFor lls rls inc n).status = "identical"
    · have hstep : (compareStep lls rls inc rep n).summary = rep.summary := by
        simp [compareStep, hn]
      constructor
      · rw [h1, hstep]
        simp [hn]
      · rw [h2, hstep]
        simp [hn]
    · have hsum : (compareStep lls rls inc rep n).summary
          = { status := "FAIL", ladder_differences := rep.summary.ladder_differences + 1 } := by
        simp [compareStep, hn]
      constructor
      · rw [h1, hsum]
        by_cases hs : (ns.any fun m => decide ((ladEntryFor lls rls inc m).status ≠ "identical"))
          <;> simp [hn, hs]
      · rw [h2, hsum]
        simp [hn]
        omega

theorem compare_fold_ladders_pred (lls rls : List (String × LadderDoc)) (inc : Bool)
    (P : LadderEntry → Prop) (hP : ∀ name, P (ladEntryFor lls rls inc name))
    (names : List String) (rep : Report) (hrep : ∀ e ∈ rep.ladders, P e.2) :
    ∀ e ∈ (names.foldl (compareStep lls rls inc) rep).ladders, P e.2 := by
  induction names generalizing rep with
  | nil => exact hrep
  | cons n ns ih =>
    refine ih (compareStep lls rls inc rep n) ?_
    intro e he
    have : e ∈ dictInsert rep.ladders (normalize_ladder_name n) (ladEntryFor lls rls inc n) := by
      simpa [compareStep] using he
    rcases mem_dictInsert _ _ _ _ this with h | h
    · rw [h]; exact hP n
    · exact hrep e h

theorem ladEntryFor_self_identical (lls : List (String × LadderDoc)) (inc : Bool)
    (name : String) (h : name ∈ lls.map Prod.fst) :
    (ladEntryFor lls lls inc name).status = "identical" := by
  obtain ⟨lv, hlv⟩ := Option.isSome_iff_exists.mp (lookupA_isSome_of_mem_keys lls name h)
  simp [ladEntryFor, hlv]

theorem mem_allLadderFiles (lls rls : List (String × LadderDoc)) (name : String)
    (h : name ∈ allLadderFiles lls rls) :
    name ∈ lls.map Prod.fst ∨ name ∈ rls.map Prod.fst := by
  have h1 : name ∈ (lls.map Prod.fst ++ rls.map Prod.fst).dedup := by
    simpa [allLadderFiles, sortStr,
      (List.perm_insertionSort strLe ((lls.map Prod.fst ++ rls.map Prod.fst).dedup)).mem_iff]
      using h
  simpa using List.mem_dedup.mp h1

/-! ### Claims C4, C5, C10, C1 -/

/-- Claim C4: for well-formed documents (both carrying a `path`), the
comparator returns a report whose `summary.status` is `FAIL` exactly when
some ladder of the sorted key union gets a non-`identical` entry (else
`PASS`), and whose `ladder_differences` counts those ladders; comparing a
document against itself yields `PASS` and `0`. -/
theorem claim_C4 :
    (∀ (left_idx right_idx : RevisionDoc) (lp rp : String) (inc : Bool) (lpath rpath : String),
      left_idx.path = some lpath → right_idx.path = some rpath →
      ∃ rep, compare_revisions left_idx right_idx lp rp inc = .ok rep
        ∧ rep.summary.status
            = (if (allLadderFiles left_idx.ladders right_idx.ladders).any
                  (fun n => decide ((ladEntryFor left_idx.ladders right_idx.ladders inc n).status
                    ≠ "identical"))
               then "FAIL" else "PASS")
        ∧ rep.summary.ladder_differences
            = (allLadderFiles left_idx.ladders right_idx.ladders).countP
                (fun n => decide ((ladEntryFor left_idx.ladders right_idx.ladders inc n).status
                  ≠ "identical")))
    ∧ (∀ (d : RevisionDoc) (lp rp : String) (inc : Bool) (dpath : String),
      d.path = some dpath →
      ∃ rep, compare_revisions d d lp rp inc = .ok rep
        ∧ rep.summary.status = "PASS" ∧ rep.summary.ladder_differences = 0) := by
  constructor
  · intro left_idx right_idx lp rp inc lpath rpath hl hr
    refine ⟨(allLadderFiles left_idx.ladders right_idx.ladders).foldl
      (compareStep left_idx.ladders right_idx.ladders inc)
      (initReport left_idx right_idx lpath rpath lp rp),
      by simp [compare_revisions, hl, hr], ?_, ?_⟩
    · have h := (compare_fold_summary left_idx.ladders right_idx.ladders inc
        (allLadderFiles left_idx.ladders right_idx.ladders)
        (initReport left_idx right_idx lpath rpath lp rp)).1
      rw [h]
      simp [initReport]
    · have h := (compare_fold_summary left_idx.ladders right_idx.ladders inc
        (allLadderFiles left_idx.ladders right_idx.ladders)
        (initReport left_idx right_idx lpath rpath lp rp)).2
      rw [h]
      simp [initReport]
  · intro d lp rp inc dpath hd
    have hall : ∀ n ∈ allLadderFiles d.ladders d.ladders,
        (ladEntryFor d.ladders d.ladders inc n).status = "identical" := by
      intro n hn
      rcases mem_allLadderFiles d.ladders d.ladders n hn with h | h <;>
        exact ladEntryFor_self_identical d.ladders inc n h
    refine ⟨(allLadderFiles d.ladders d.ladders).foldl
      (compareStep d.ladders d.ladders inc)
      (initReport d d dpath dpath lp rp),
      by simp [compare_revisions, hd], ?_, ?_⟩
    · have := (compare_fold_summary d.ladders d.ladders inc
        (allLadderFiles d.ladders d.ladders) (initReport d d dpath dpath lp rp)).1
      rw [this]
      have hany : (allLadderFiles d.ladders d.ladders).any
          (fun n => decide ((ladEntryFor d.ladders d.ladders inc n).status ≠ "identical"))
            = false := by
        rw [List.any_eq_false]
        intro n hn
        simp [hall n hn]
      simp [hany, initReport]
      exact hall
    · have := (compare_fold_summary d.ladders d.ladders inc
        (allLadderFiles d.ladders d.ladders) (initReport d d dpath dpath lp rp)).2
      rw [this]
      have hcnt : (allLadderFiles d.ladders d.ladders).countP
          (fun n => decide ((ladEntryFor d.ladders d.ladders inc n).status ≠ "identical")) = 0 := by
        rw [List.countP_eq_zero]
        intro n hn
        simp [hall n hn]
      simp [hcnt, initReport]
      exact hall

/-- Claim C4 witness: both parts of `claim_C4` at a concrete document
(one TON ladder) compared with itself. -/
theorem claim_C4_witness :
    (∃ rep, compare_revisions
        { location := "siteA", revision := "rev1", path := some "p",
          ladders := [("LAD2", process_ladder_file "SOR TON T4:0 1.0 30 0 EOR")] }
        { location := "siteA", revision := "rev1", path := some "p",
          ladders := [("LAD2", process_ladder_file "SOR TON T4:0 1.0 30 0 EOR")] }
        "l" "r" false = .ok rep
      ∧ rep.summary.status
          = (if (allLadderFiles
                [("LAD2", process_ladder_file "SOR TON T4:0 1.0 30 0 EOR")]
                [("LAD2", process_ladder_file "SOR TON T4:0 1.0 30 0 EOR")]).any
                (fun n => decide ((ladEntryFor
                  [("LAD2", process_ladder_file "SOR TON T4:0 1.0 30 0 EOR")]
                  [("LAD2", process_ladder_file "SOR TON T4:0 1.0 30 0 EOR")] false n).status
                    ≠ "identical"))
             then "FAIL" else "PASS")
      ∧ rep.summary.ladder_differences
          = (allLadderFiles
              [("LAD2", process_ladder_file "SOR TON T4:0 1.0 30 0 EOR")]
              [("LAD2", process_ladder_file "SOR TON T4:0 1.0 30 0 EOR")]).countP
              (fun n => decide ((ladEntryFor
                [("LAD2", process_ladder_file "SOR TON T4:0 1.0 30 0 EOR")]
                [("LAD2", process_ladder_file "SOR TON T4:0 1.0 30 0 EOR")] false n).status
                  ≠ "identical")))
    ∧ (∃ rep, compare_revisions
        { location := "siteA", revision := "rev1", path := some "p",
          ladders := [("LAD2", process_ladder_file "SOR TON T4:0 1.0 30 0 EOR")] }
        { location := "siteA", revision := "rev1", path := some "p",
          ladders := [("LAD2", process_ladder_file "SOR TON T4:0 1.0 30 0 EOR")] }
        "l" "r" false = .ok rep
      ∧ rep.summary.status = "PASS" ∧ rep.summary.ladder_differences = 0) :=
  ⟨claim_C4.1
      { location := "siteA", revision := "rev1", path := some "p",
        ladders := [("LAD2", process_ladder_file "SOR TON T4:0 1.0 30 0 EOR")] }
      { location := "siteA", revision := "rev1", path := some "p",
        ladders := [("LAD2", process_ladder_file "SOR TON T4:0 1.0 30 0 EOR")] }
      "l" "r" false "p" "p" rfl rfl,
   claim_C4.2
      { location := "siteA", revision := "rev1", path := some "p",
        ladders := [("LAD2", process_ladder_file "SOR TON T4:0 1.0 30 0 EOR")] }
      "l" "r" false "p" rfl⟩

/-- Claim C5: changing only the accumulator operand of a recognized TON
instruction (the runtime channel) leaves the structural tokens, parameter
tokens, `structural_hash` and `parameter_hash` unchanged (two-run
noninterference of the runtime channel on both hashes); and no ladder
entry of a comparison of documents whose ladders lack ladder-level
structural hashes (as all digest-builder documents do) is ever classified
`logic_difference`. -/
theorem claim_C5 :
    (∀ pre timer timebase preset accum accum' rest, "TON" ∉ pre →
      ((_classify_tokens (pre ++ "TON" :: timer :: timebase :: preset :: accum :: rest)).1
          = (_classify_tokens (pre ++ "TON" :: timer :: timebase :: preset :: accum' :: rest)).1
        ∧ (_classify_tokens (pre ++ "TON" :: timer :: timebase :: preset :: accum :: rest)).2.1
          = (_classify_tokens (pre ++ "TON" :: timer :: timebase :: preset :: accum' :: rest)).2.1
        ∧ _hash_tokens
            (_classify_tokens (pre ++ "TON" :: timer :: timebase :: preset :: accum :: rest)).1
          = _hash_tokens
            (_classify_tokens (pre ++ "TON" :: timer :: timebase :: preset :: accum' :: rest)).1
        ∧ _hash_tokens
            ((_classify_tokens
                (pre ++ "TON" :: timer :: timebase :: preset :: accum :: rest)).2.1.map
              (fun kv => kv.1 ++ "=" ++ kv.2))
          = _hash_tokens
            ((_classify_tokens
                (pre ++ "TON" :: timer :: timebase :: preset :: accum' :: rest)).2.1.map
              (fun kv => kv.1 ++ "=" ++ kv.2))))
    ∧ (∀ (left_idx right_idx : RevisionDoc) (lp rp : String) (inc : Bool),
        (∀ p ∈ left_idx.ladders, p.2.ladder_structural_hash = none) →
        (∀ p ∈ right_idx.ladders, p.2.ladder_structural_hash = none) →
        ∀ e ∈ reportLadders (compare_revisions left_idx right_idx lp rp inc),
          e.2.status ≠ "logic_difference") := by
  constructor
  · intro pre timer timebase preset accum accum' rest h
    have e1 := classify_append_no_ton pre
      ("TON" :: timer :: timebase :: preset :: accum :: rest) h
    have e2 := classify_append_no_ton pre
      ("TON" :: timer :: timebase :: preset :: accum' :: rest) h
    have hs : (_classify_tokens (pre ++ "TON" :: timer :: timebase :: preset :: accum :: rest)).1
        = (_classify_tokens (pre ++ "TON" :: timer :: timebase :: preset :: accum' :: rest)).1 := by
      rw [e1, e2]; simp [_classify_tokens]
    have hp : (_classify_tokens (pre ++ "TON" :: timer :: timebase :: preset :: accum :: rest)).2.1
        = (_classify_tokens (pre ++ "TON" :: timer :: timebase :: preset :: accum' :: rest)).2.1 := by
      rw [e1, e2]; simp [_classify_tokens]
    exact ⟨hs, hp, by rw [hs], by rw [hp]⟩
  · intro left_idx right_idx lp rp inc hleft hright
    have hstat : ∀ name,
        (ladEntryFor left_idx.ladders right_idx.ladders inc name).status ≠ "logic_difference" := by
      intro name
      match hml : lookupA left_idx.ladders name, hmr : lookupA right_idx.ladders name with
      | none, r => simp [ladEntryFor, hml]
      | some lv, none => simp [ladEntryFor, hml, hmr]
      | some lv, some rv =>
        have h1 : lv.ladder_structural_hash = none := hleft _ (lookupA_mem _ _ _ hml)
        have h2 : rv.ladder_structural_hash = none := hright _ (lookupA_mem _ _ _ hmr)
        by_cases hph : lv.ladder_parameter_hash ≠ rv.ladder_parameter_hash <;>
          simp [ladEntryFor, hml, hmr, h1, h2, hph]
    match hcmp : compare_revisions left_idx right_idx lp rp inc with
    | .error e => simp [reportLadders]
    | .ok rep =>
      intro e he
      simp only [reportLadders] at he
      obtain ⟨lpath, rpath, hl, hr, hrep⟩ :
          ∃ lpath rpath, left_idx.path = some lpath ∧ right_idx.path = some rpath
            ∧ rep = (allLadderFiles left_idx.ladders right_idx.ladders).foldl
                (compareStep left_idx.ladders right_idx.ladders inc)
                (initReport left_idx right_idx lpath rpath lp rp) := by
        match hl : left_idx.path, hr : right_idx.path with
        | some lpath, some rpath =>
          refine ⟨lpath, rpath, rfl, rfl, ?_⟩
          simp only [compare_revisions, hl, hr] at hcmp
          exact (Except.ok.injEq _ _).mp hcmp |>.symm
        | some _, none => simp [compare_revisions, hl, hr] at hcmp
        | none, _ => simp [compare_revisions, hl] at hcmp
      subst hrep
      exact compare_fold_ladders_pred left_idx.ladders right_idx.ladders inc
        (fun en => en.status ≠ "logic_difference") hstat _ _ (by simp [initReport]) e he

/-- Claim C5 witness: the noninterference part at the spec's TON example
with accumulator `0` vs `1`, and the comparator part at two one-ladder
digest-builder documents (with a `path` added) differing only in that
accumulator. -/
theorem claim_C5_witness :
    ((_classify_tokens ([] ++ "TON" :: "T4:0" :: "1.0" :: "30" :: "0" :: [])).1
        = (_classify_tokens ([] ++ "TON" :: "T4:0" :: "1.0" :: "30" :: "1" :: [])).1
      ∧ (_classify_tokens ([] ++ "TON" :: "T4:0" :: "1.0" :: "30" :: "0" :: [])).2.1
        = (_classify_tokens ([] ++ "TON" :: "T4:0" :: "1.0" :: "30" :: "1" :: [])).2.1
      ∧ _hash_tokens (_classify_tokens ([] ++ "TON" :: "T4:0" :: "1.0" :: "30" :: "0" :: [])).1
        = _hash_tokens (_classify_tokens ([] ++ "TON" :: "T4:0" :: "1.0" :: "30" :: "1" :: [])).1
      ∧ _hash_tokens ((_classify_tokens
            ([] ++ "TON" :: "T4:0" :: "1.0" :: "30" :: "0" :: [])).2.1.map
          (fun kv => kv.1 ++ "=" ++ kv.2))
        = _hash_tokens ((_classify_tokens
            ([] ++ "TON" :: "T4:0" :: "1.0" :: "30" :: "1" :: [])).2.1.map
          (fun kv => kv.1 ++ "=" ++ kv.2)))
    ∧ (∀ e ∈ reportLadders (compare_revisions
        { location := "siteA", revision := "rev1", path := some "p",
          ladders := [("LAD2", process_ladder_file "SOR TON T4:0 1.0 30 0 EOR")] }
        { location := "siteA", revision := "rev2", path := some "p",
          ladders := [("LAD2", process_ladder_file "SOR TON T4:0 1.0 30 1 EOR")] }
        "l" "r" false),
        e.2.status ≠ "logic_difference") :=
  ⟨claim_C5.1 [] "T4:0" "1.0" "30" "0" "1" [] (by decide),
   claim_C5.2
     { location := "siteA", revision := "rev1", path := some "p",
       ladders := [("LAD2", process_ladder_file "SOR TON T4:0 1.0 30 0 EOR")] }
     { location := "siteA", revision := "rev2", path := some "p",
       ladders := [("LAD2", process_ladder_file "SOR TON T4:0 1.0 30 1 EOR")] }
     "l" "r" false (by intro p hp; simp at hp; simp [hp, process_ladder_file])
     (by intro p hp; simp at hp; simp [hp, process_ladder_file])⟩

/-- Claim C10: documents assembled by `likeaversion.run` carry no `path`
key, so `compare_revisions`, which reads `path` unconditionally for the
report header, raises `KeyError` for every pair of digest-builder
documents instead of returning a report. -/
theorem claim_C10 :
    ∀ (loc rev : String) (lads : List (String × String)) (loc' rev' : String)
      (lads' : List (String × String)) (lp rp : String) (inc : Bool),
      (mkRevisionDoc loc rev lads).path = none
      ∧ compare_revisions (mkRevisionDoc loc rev lads) (mkRevisionDoc loc' rev' lads')
          lp rp inc = .error "KeyError: path" := by
  intro loc rev lads loc' rev' lads' lp rp inc
  exact ⟨rfl, rfl⟩

/-- Left document of the C1 failing input: one ladder with the single rung
`XIC`, as the digest builder produces it, plus a `path` so the comparator
does not fail on the unrelated missing-`path` defect. -/
def C1left : RevisionDoc :=
  { location := "siteA", revision := "rev1", path := some "/data/siteA/rev1/likeaversion.json",
    ladders := [("LAD2", process_ladder_file "SOR XIC EOR")] }

/-- Right document of the C1 failing input: identical except the one
structural token `XIC` is `XIO`, so the rung's `structural_hash` differs. -/
def C1right : RevisionDoc :=
  { location := "siteA", revision := "rev2", path := some "/data/siteA/rev2/likeaversion.json",
    ladders := [("LAD2", process_ladder_file "SOR XIO EOR")] }

/-- Claim C1 (failing-input evaluation): on two digest-builder documents
identical except for one structural token of one rung — whose
`structural_hash` fields therefore differ — the comparator classifies the
ladder `identical` and reports `summary.status = "PASS"` with zero ladder
differences, because the `ladder_structural_hash` key it compares is never
written by the digest builder (`None == None`); the claimed
`logic_difference`/`FAIL` does not occur. -/
theorem claim_C1 :
    ((process_ladder_file "SOR XIC EOR").rungs.map (fun p => p.2.structural_hash)
        ≠ (process_ladder_file "SOR XIO EOR").rungs.map (fun p => p.2.structural_hash))
    ∧ reportView (compare_revisions C1left C1right "left.json" "right.json" false)
        = some ("PASS", 0, [("LAD2", "identical")]) := by
  exact ⟨by decide, by decide⟩

/-! ### `rung_index.py`: the Alignment Index builder -/

/-- A filesystem path as a list of components; `p.parent` is `dropLast`. -/
abbrev FsPath := List String

/-- Python `str(path)` for a component path. -/
def pathStr (p : FsPath) : String := String.intercalate "/" p

/-- The parsed `program_snapshot.json` sidecar as far as the builder reads
it: the `program_files` and `data_files` lists (only their lengths are
consumed) and `identity.processor`. -/
structure SnapshotJson where
  program_files : List String
  data_files : List String
  processor : Option String
deriving DecidableEq

/-- The digest `_read_program_snapshot` returns for a readable sidecar. -/
structure SnapInfo where
  ladders : Nat
  data_files : Nat
  processor : Option String
  snapshot_path : String
deriving DecidableEq

/-- `rung_index._read_program_snapshot` over a snapshot filesystem map;
`snapFS p = none` covers both a missing file and any exception while
reading or parsing it (the source collapses both to `None`). -/
def _read_program_snapshot (snapFS : FsPath → Option SnapshotJson) (snapshot_path : FsPath) :
    Option SnapInfo :=
  match snapFS snapshot_path with
  | none => none
  | some snap =>
    some { ladders := snap.program_files.length, data_files := snap.data_files.length,
           processor := snap.processor, snapshot_path := pathStr snapshot_path }

/-- Numeric value of a list of decimal digit characters. -/
def digitsVal (ds : List Char) : Nat := ds.foldl (fun n c => 10 * n + (c.toNat - 48)) 0

/-- Python `int(s)` on a stripped string: optional sign then decimal
digits; `none` is the raised `ValueError` (digit-group underscores are not
modelled; no input of this system produces them). -/
def parsePyInt (s : String) : Option Int :=
  match s.data with
  | [] => none
  | '-' :: ds =>
    if ds ≠ [] ∧ ds.all Char.isDigit then some (-(digitsVal ds : Nat)) else none
  | '+' :: ds =>
    if ds ≠ [] ∧ ds.all Char.isDigit then some (digitsVal ds : Nat) else none
  | ds => if ds.all Char.isDigit then some (digitsVal ds : Nat) else none

/-- `rung_index._parse_rung_no`: `int(str(rung_id).strip())`, `None` on
failure. -/
def _parse_rung_no (rung_id : String) : Option Int := parsePyInt (pyStrip rung_id)

/-- The example payload stored at a parameter bucket (the `.get` calls of
the source always hit present `RungDoc` fields). -/
structure Payload where
  raw : String
  tokens : List String
  structural_tokens : List String
  parameter_tokens : List (String × String)
  runtime_tokens : List (String × String)
deriving DecidableEq

/-- The payload recorded from one rung document. -/
def payloadOf (rung : RungDoc) : Payload :=
  { raw := rung.raw, tokens := rung.tokens, structural_tokens := rung.structural_tokens,
    parameter_tokens := rung.parameter_tokens, runtime_tokens := rung.runtime_tokens }

/-- Innermost bucket: contributing program ids and the one retained
example payload (the source key is `example`). -/
structure ParamBucket where
  programs : List String
  example_payload : Option Payload
deriving DecidableEq

/-- Bucket keyed by structural hash: program set and parameter buckets. -/
structure StructBucket where
  programs : List String
  parameters : List (Option String × ParamBucket)
deriving DecidableEq

/-- Bucket keyed by rung number: structural-hash revisions. -/
structure RungNoEntry where
  revisions : List (Option String × StructBucket)
deriving DecidableEq

/-- Ladder-revision bucket (keyed by rung count). -/
structure LadRevEntry where
  programs : List String
  rungs : List (Int × RungNoEntry)
deriving DecidableEq

/-- Per-ladder aggregate: revisions keyed by rung count. -/
structure LadderAgg where
  revisions : List (Nat × LadRevEntry)
deriving DecidableEq

/-- Family key: the `(ladders, data_files)` footprint, `none` = unknown. -/
abbrev FamKey := Option Nat × Option Nat

/-- One footprint family of the in-memory index. -/
structure Family where
  footprint : FamKey
  programs : List String
  program_stats : List (String × SnapInfo)
  ladders : List (String × LadderAgg)
deriving DecidableEq

/-- The in-memory index state: families keyed by footprint. -/
abbrev Families := List (FamKey × Family)

/-- `defaultdict` default of the innermost level. -/
def emptyParamBucket : ParamBucket := { programs := [], example_payload := none }

/-- `defaultdict` default of the structural-hash level. -/
def emptyStructBucket : StructBucket := { programs := [], parameters := [] }

/-- `defaultdict` default of the rung-number level. -/
def emptyRungNoEntry : RungNoEntry := { revisions := [] }

/-- `defaultdict` default of the ladder-revision level. -/
def emptyLadRevEntry : LadRevEntry := { programs := [], rungs := [] }

/-- `defaultdict` default of the per-ladder level. -/
def emptyLadderAgg : LadderAgg := { revisions := [] }

/-- `get_family`'s fresh family for a footprint key. -/
def emptyFamily (key : FamKey) : Family :=
  { footprint := key, programs := [], program_stats := [], ladders := [] }

/-- The per-rung body of the fold: bucket the rung under its parsed number
(`-1` when unparsable), structural hash and parameter hash; add the
program id at both hash levels and set the example payload only if the
bucket has none yet. -/
def processRungPair (program_id : String) (lad_rev : LadRevEntry) (pr : String × RungDoc) :
    LadRevEntry :=
  let rung_no := (_parse_rung_no pr.1).getD (-1)
  { lad_rev with
    rungs := updGet lad_rev.rungs rung_no emptyRungNoEntry (fun rne =>
      { revisions := updGet rne.revisions pr.2.structural_hash emptyStructBucket (fun sb =>
          { programs := setAdd sb.programs program_id
            parameters := updGet sb.parameters pr.2.parameter_hash emptyParamBucket (fun pb =>
              { programs := setAdd pb.programs program_id
                example_payload :=
                  match pb.example_payload with
                  | none => some (payloadOf pr.2)
                  | some e => some e }) }) }) }

/-- The per-ladder body of the fold: the ladder-revision bucket is keyed
by the rung count; the program id is added to it and every rung folded. -/
def processLadderPair (program_id : String) (fam : Family) (lp : String × LadderDoc) : Family :=
  let rung_count := lp.2.rungs.length
  { fam with
    ladders := updGet fam.ladders lp.1 emptyLadderAgg (fun lagg =>
      { revisions := updGet lagg.revisions rung_count emptyLadRevEntry (fun lad_rev =>
          lp.2.rungs.foldl (processRungPair program_id)
            { lad_rev with programs := setAdd lad_rev.programs program_id }) }) }

/-- The snapshot digest for the revision directory of `idx_path`:
`idx_path.parent / "program_snapshot.json"`. The per-directory cache of
the source is transparent here because the filesystem map is pure. -/
def snapshotFor (snapFS : FsPath → Option SnapshotJson) (idx_path : FsPath) : Option SnapInfo :=
  _read_program_snapshot snapFS (idx_path.dropLast ++ ["program_snapshot.json"])

/-- The footprint key a document is bucketed under: the snapshot's counts,
or `(none, none)` when the sidecar is missing or unreadable. -/
def famKeyOf (snapFS : FsPath → Option SnapshotJson) (idx_path : FsPath) : FamKey :=
  match snapshotFor snapFS idx_path with
  | some snap => (some snap.ladders, some snap.data_files)
  | none => (none, none)

/-- The per-document body of the fold of `build_rung_index_from_files`:
fetch the family (creating it if new), add the program id and stats, and
fold every ladder of the document. -/
def processDoc (snapFS : FsPath → Option SnapshotJson) (st : Families) (idx_path : FsPath)
    (likea : RevisionDoc) : Families :=
  let program_id := likea.location ++ "/" ++ likea.revision
  let key := famKeyOf snapFS idx_path
  updGet st key (emptyFamily key) (fun fam =>
    likea.ladders.foldl (processLadderPair program_id)
      { fam with
        programs := setAdd fam.programs program_id
        program_stats :=
          match snapshotFor snapFS idx_path with
          | some s => dictInsert fam.program_stats program_id s
          | none => fam.program_stats })

/-- `json.load` of a per-revision index document inside the builder's
loop; it is not guarded by any `try`, so an unreadable or malformed file
(or one without the required keys) raises out of the whole build. -/
def load_json (idxFS : FsPath → Option RevisionDoc) (path : FsPath) :
    Except String RevisionDoc :=
  match idxFS path with
  | some d => .ok d
  | none => .error ("cannot read " ++ pathStr path)

/-- The document fold of `build_rung_index_from_files` over already-loaded
documents paired with their index-file paths. -/
def buildFamiliesPure (snapFS : FsPath → Option SnapshotJson)
    (pdocs : List (FsPath × RevisionDoc)) : Families :=
  pdocs.foldl (fun st pd => processDoc snapFS st pd.1 pd.2) []

/-- The document fold of `build_rung_index_from_files` with the
`load_json` of each index file inside the loop: a failing load aborts. -/
def buildFamilies (idxFS : FsPath → Option RevisionDoc)
    (snapFS : FsPath → Option SnapshotJson) (index_files : List FsPath) :
    Except String Families :=
  index_files.foldlM
    (fun st p => (load_json idxFS p).map (fun d => processDoc snapFS st p d)) []

/-- `rung_index.fam_sort_key`: known-footprint flag (0 known / 1 unknown),
then the counts with `10 ** 9` standing in for `None`. -/
def fam_sort_key (k : FamKey) : Nat × Nat × Nat :=
  ((if k.1.isSome ∧ k.2.isSome then 0 else 1), k.1.getD (10 ^ 9), k.2.getD (10 ^ 9))

/-- Lexicographic order on number triples, as Python compares tuples. -/
def lexLe3 (a b : Nat × Nat × Nat) : Bool :=
  decide (a.1 < b.1) ||
    (decide (a.1 = b.1) &&
      (decide (a.2.1 < b.2.1) || (decide (a.2.1 = b.2.1) && decide (a.2.2 ≤ b.2.2))))

/-- The order `sorted(families.keys(), key=fam_sort_key)` sorts by. -/
def famLe (k1 k2 : FamKey) : Prop := lexLe3 (fam_sort_key k1) (fam_sort_key k2) = true

instance : DecidableRel famLe := fun a b =>
  instDecidableEqBool (lexLe3 (fam_sort_key a) (fam_sort_key b)) true

/-- `famLe` lifted to keyed family entries. -/
def famPairLe (a b : FamKey × Family) : Prop := famLe a.1 b.1

instance : DecidableRel famPairLe := fun a b =>
  inferInstanceAs (Decidable (famLe a.1 b.1))

/-- Serialized innermost bucket (`programs` sorted). -/
structure ParamOut where
  programs : List String
  example_payload : Option Payload
deriving DecidableEq

/-- Serialized structural-hash bucket. -/
structure StructOut where
  programs : List String
  parameters : List (Option String × ParamOut)
deriving DecidableEq

/-- Serialized rung-number bucket. -/
structure RungNoOut where
  revisions : List (Option String × StructOut)
deriving DecidableEq

/-- Serialized ladder-revision bucket (keys stringified). -/
structure LadRevOut where
  programs : List String
  rungs : List (String × RungNoOut)
deriving DecidableEq

/-- Serialized per-ladder aggregate. -/
structure LadderOut where
  revisions : List (String × LadRevOut)
deriving DecidableEq

/-- Serialized family: footprint, sorted program ids, stats, ladders. -/
structure FamilyOut where
  footprint : FamKey
  programs : List String
  program_stats : List (String × SnapInfo)
  ladders : List (String × LadderOut)
deriving DecidableEq

/-- Python `str(n)` for an `Option Nat` inside the key tuple (`None`). -/
def optNatRepr : Option Nat → String
  | none => "None"
  | some n => natStr n

/-- Python `str(fam_key)` for the footprint pair. -/
def famKeyStr (k : FamKey) : String := "(" ++ optNatRepr k.1 ++ ", " ++ optNatRepr k.2 ++ ")"

/-- Python `str(i)` for the (possibly `-1`) rung number. -/
def pyIntStr (i : Int) : String :=
  if i < 0 then "-" ++ natStr (-i).toNat else natStr i.toNat

/-- Serialization of a parameter bucket. -/
def serializeParamBucket (pb : ParamBucket) : ParamOut :=
  { programs := sortStr pb.programs, example_payload := pb.example_payload }

/-- Serialization of a structural-hash bucket. -/
def serializeStructBucket (sb : StructBucket) : StructOut :=
  { programs := sortStr sb.programs
    parameters := sb.parameters.map (fun q => (q.1, serializeParamBucket q.2)) }

/-- Serialization of a rung-number bucket. -/
def serializeRungNo (rne : RungNoEntry) : RungNoOut :=
  { revisions := rne.revisions.map (fun q => (q.1, serializeStructBucket q.2)) }

/-- Serialization of a ladder-revision bucket. -/
def serializeLadRev (lrev : LadRevEntry) : LadRevOut :=
  { programs := sortStr lrev.programs
    rungs := lrev.rungs.map (fun q => (pyIntStr q.1, serializeRungNo q.2)) }

/-- Serialization of a per-ladder aggregate. -/
def serializeLadderAgg (lagg : LadderAgg) : LadderOut :=
  { revisions := lagg.revisions.map (fun q => (natStr q.1, serializeLadRev q.2)) }

/-- Serialization of one keyed family. -/
def serializeFamily (kf : FamKey × Family) : String × FamilyOut :=
  (famKeyStr kf.1,
   { footprint := kf.1
     programs := sortStr kf.2.programs
     program_stats := kf.2.program_stats
     ladders := kf.2.ladders.map (fun q => (q.1, serializeLadderAgg q.2)) })

/-- The serialization loop of `build_rung_index_from_files`: families in
`fam_sort_key` order (a stable sort, like Python's), inner maps in
insertion order. -/
def serializeFamilies (families : Families) : List (String × FamilyOut) :=
  (families.insertionSort famPairLe).map serializeFamily

/-- `rung_index.build_rung_index_from_files`: load every index document
(a failing load raises), fold them into families, serialize. -/
def build_rung_index_from_files (idxFS : FsPath → Option RevisionDoc)
    (snapFS : FsPath → Option SnapshotJson) (index_files : List FsPath) :
    Except String (List (String × FamilyOut)) :=
  (buildFamilies idxFS snapFS index_files).map serializeFamilies

/-- Whether a build raised. -/
def buildRaised : Except String (List (String × FamilyOut)) → Bool
  | .error _ => true
  | .ok _ => false

/-- The serialized output of a build, `[]` when it raised. -/
def okFamilies : Except String (List (String × FamilyOut)) → List (String × FamilyOut)
  | .ok l => l
  | .error _ => []

/-! ### Claim C6 -/

/-- The one readable per-revision document of the C6 failing input. -/
def C6doc : RevisionDoc := mkRevisionDoc "site" "rev2" [("LAD2", "SOR XIC EOR")]

/-- Index-file filesystem of the C6 failing input: `site/rev1`'s document
is unreadable (or malformed), `site/rev2`'s is fine. -/
def C6idxFS : FsPath → Option RevisionDoc := fun p =>
  if p = ["site", "rev2", "likeaversion.json"] then some C6doc else none

/-- Claim C6 (failing-input evaluation): with two revisions of which only
the first has an unreadable/malformed index document, the bulk build
raises and produces no index at all — the remaining revision is *not*
processed — although the same build over the healthy revision alone
succeeds; the claimed skip-and-continue behaviour does not exist (only
sidecar snapshot failures are tolerated, index-document loads are
unguarded). -/
theorem claim_C6 :
    buildRaised (build_rung_index_from_files C6idxFS (fun _ => none)
        [["site", "rev1", "likeaversion.json"], ["site", "rev2", "likeaversion.json"]]) = true
    ∧ buildRaised (build_rung_index_from_files C6idxFS (fun _ => none)
        [["site", "rev2", "likeaversion.json"]]) = false := by
  exact ⟨by decide, by decide⟩

/-! ### Ordering lemmas for the serialized family keys -/

theorem famLe_total (a b : FamKey) : famLe a b ∨ famLe b a := by
  simp only [famLe, lexLe3, Bool.or_eq_true, Bool.and_eq_true, decide_eq_true_eq]
  omega

theorem famLe_trans (a b c : FamKey) : famLe a b → famLe b c → famLe a c := by
  simp only [famLe, lexLe3, Bool.or_eq_true, Bool.and_eq_true, decide_eq_true_eq]
  omega

instance : IsTotal (FamKey × Family) famPairLe := ⟨fun a b => famLe_total a.1 b.1⟩

instance : IsTrans (FamKey × Family) famPairLe :=
  ⟨fun _ _ _ h1 h2 => famLe_trans _ _ _ h1 h2⟩

theorem serializeFamilies_pairwise (families : Families) :
    (serializeFamilies families).Pairwise (fun x y => famLe x.2.footprint y.2.footprint) := by
  have hs : (families.insertionSort famPairLe).Pairwise famPairLe :=
    List.sorted_insertionSort famPairLe families
  rw [serializeFamilies, List.pairwise_map]
  exact hs

theorem famLe_implies_order (k1 k2 : FamKey) (h : famLe k1 k2) :
    ((k2.1.isSome ∧ k2.2.isSome) → (k1.1.isSome ∧ k1.2.isSome))
    ∧ ((k1.1.isSome ∧ k1.2.isSome) → (k2.1.isSome ∧ k2.2.isSome) →
       (k1.1.getD 0 < k2.1.getD 0 ∨ (k1.1 = k2.1 ∧ k1.2.getD 0 ≤ k2.2.getD 0))) := by
  obtain ⟨a1, b1⟩ := k1
  obtain ⟨a2, b2⟩ := k2
  simp only [famLe, lexLe3, fam_sort_key, Bool.or_eq_true, Bool.and_eq_true,
    decide_eq_true_eq] at h
  cases a1 <;> cases b1 <;> cases a2 <;> cases b2 <;> simp_all

theorem buildFamilies_foldlM_ok (idxFS : FsPath → Option RevisionDoc)
    (snapFS : FsPath → Option SnapshotJson) :
    ∀ (index_files : List FsPath) (st : Families),
      (∀ p ∈ index_files, (idxFS p).isSome) →
      ∃ fams, index_files.foldlM
        (fun st p => (load_json idxFS p).map (fun d => processDoc snapFS st p d)) st
          = .ok fams := by
  intro files
  induction files with
  | nil => exact fun st _ => ⟨st, rfl⟩
  | cons p ps ih =>
    intro st h
    obtain ⟨d, hd⟩ := Option.isSome_iff_exists.mp (h p (List.mem_cons_self _ _))
    obtain ⟨fams, hf⟩ :=
      ih (processDoc snapFS st p d) (fun q hq => h q (List.mem_cons_of_mem _ hq))
    refine ⟨fams, ?_⟩
    simp only [List.foldlM_cons, load_json, hd, Except.map]
    exact hf

/-! ### Claim C7 -/

/-- Claim C7: a missing or unreadable sidecar snapshot degrades the
revision to the unknown `(none, none)` footprint; a build whose index
documents are all readable never raises regardless of the snapshot
filesystem; and in the serialized output the families are ordered with
fully-known footprints first (ascending by ladder count, then data-file
count) and every footprint containing `none` after all known ones. -/
theorem claim_C7 :
    (∀ (snapFS : FsPath → Option SnapshotJson) (idx_path : FsPath),
      snapFS (idx_path.dropLast ++ ["program_snapshot.json"]) = none →
      famKeyOf snapFS idx_path = (none, none))
    ∧ (∀ (idxFS : FsPath → Option RevisionDoc) (snapFS : FsPath → Option SnapshotJson)
        (index_files : List FsPath),
        (∀ p ∈ index_files, (idxFS p).isSome) →
        ∃ out, build_rung_index_from_files idxFS snapFS index_files = .ok out)
    ∧ (∀ (idxFS : FsPath → Option RevisionDoc) (snapFS : FsPath → Option SnapshotJson)
        (index_files : List FsPath),
        (okFamilies (build_rung_index_from_files idxFS snapFS index_files)).Pairwise
          (fun x y =>
            ((y.2.footprint.1.isSome ∧ y.2.footprint.2.isSome) →
              (x.2.footprint.1.isSome ∧ x.2.footprint.2.isSome))
            ∧ ((x.2.footprint.1.isSome ∧ x.2.footprint.2.isSome) →
               (y.2.footprint.1.isSome ∧ y.2.footprint.2.isSome) →
               (x.2.footprint.1.getD 0 < y.2.footprint.1.getD 0
                 ∨ (x.2.footprint.1 = y.2.footprint.1
                    ∧ x.2.footprint.2.getD 0 ≤ y.2.footprint.2.getD 0))))) := by
  refine ⟨?_, ?_, ?_⟩
  · intro snapFS idx_path h
    simp [famKeyOf, snapshotFor, _read_program_snapshot, h]
  · intro idxFS snapFS index_files h
    obtain ⟨fams, hf⟩ := buildFamilies_foldlM_ok idxFS snapFS index_files [] h
    have hb : buildFamilies idxFS snapFS index_files = .ok fams := hf
    refine ⟨serializeFamilies fams, ?_⟩
    simp [build_rung_index_from_files, hb, Except.map]
  · intro idxFS snapFS index_files
    cases hb : buildFamilies idxFS snapFS index_files with
    | error e => simp [build_rung_index_from_files, hb, okFamilies, Except.map]
    | ok fams =>
      have : okFamilies (build_rung_index_from_files idxFS snapFS index_files)
          = serializeFamilies fams := by
        simp [build_rung_index_from_files, hb, okFamilies, Except.map]
      rw [this]
      exact (serializeFamilies_pairwise fams).imp
        (fun {x y} h => famLe_implies_order x.2.footprint y.2.footprint h)

/-- Claim C7 witness: the degrade part at an all-missing snapshot
filesystem, and the never-fatal part at a one-file build whose index
filesystem always answers. -/
theorem claim_C7_witness :
    famKeyOf (fun _ => none) ["site", "rev1", "likeaversion.json"] = (none, none)
    ∧ ∃ out, build_rung_index_from_files
        (fun _ => some (mkRevisionDoc "site" "rev1" [("LAD2", "SOR XIC EOR")]))
        (fun _ => none) [["site", "rev1", "likeaversion.json"]] = .ok out :=
  ⟨claim_C7.1 (fun _ => none) ["site", "rev1", "likeaversion.json"] rfl,
   claim_C7.2.1 (fun _ => some (mkRevisionDoc "site" "rev1" [("LAD2", "SOR XIC EOR")]))
     (fun _ => none) [["site", "rev1", "likeaversion.json"]] (fun _ _ => rfl)⟩

/-! ### Bucket machinery for the first-example-wins claim -/

/-- Coordinates of one parameter bucket of the alignment index. -/
structure BucketPath where
  fam : FamKey
  ladder : String
  rung_count : Nat
  rung_no : Int
  struct_hash : Option String
  param_hash : Option String
deriving DecidableEq

/-- The parameter bucket at `b` inside one ladder-revision entry. -/
def lrBucket (lrev : LadRevEntry) (b : BucketPath) : Option ParamBucket :=
  (lookupA lrev.rungs b.rung_no).bind (fun rne =>
    (lookupA rne.revisions b.struct_hash).bind (fun sb =>
      lookupA sb.parameters b.param_hash))

/-- The parameter bucket at `b` inside one family. -/
def famBucket (fam : Family) (b : BucketPath) : Option ParamBucket :=
  (lookupA fam.ladders b.ladder).bind (fun lagg =>
    (lookupA lagg.revisions b.rung_count).bind (fun lrev => lrBucket lrev b))

/-- The parameter bucket at `b` in the whole index state. -/
def lookupBucket (st : Families) (b : BucketPath) : Option ParamBucket :=
  (lookupA st b.fam).bind (fun fam => famBucket fam b)

/-- Effect of one contribution `(program id, payload)` on a bucket: create
it if absent, add the program id, keep the example unless it is unset. -/
def bucketStep (cur : Option ParamBucket) (c : String × Payload) : Option ParamBucket :=
  let pb := cur.getD emptyParamBucket
  some { programs := setAdd pb.programs c.1
         example_payload :=
           match pb.example_payload with
           | none => some c.2
           | some e => some e }

/-- A bucket after a sequence of contributions. -/
def bucketFold (cur : Option ParamBucket) (cs : List (String × Payload)) : Option ParamBucket :=
  cs.foldl bucketStep cur

/-- The contributions a rung map sends to bucket `b`, in order. -/
def rungContribPairs (program_id : String) (b : BucketPath)
    (rungs : List (String × RungDoc)) : List (String × Payload) :=
  (rungs.filter (fun pr => decide (b.rung_no = (_parse_rung_no pr.1).getD (-1)
      ∧ b.struct_hash = pr.2.structural_hash ∧ b.param_hash = pr.2.parameter_hash))).map
    (fun pr => (program_id, payloadOf pr.2))

/-- The contributions a ladder map sends to bucket `b`, in order. -/
def ladderContribPairs (program_id : String) (b : BucketPath)
    (ladders : List (String × LadderDoc)) : List (String × Payload) :=
  (ladders.filter (fun lp => decide (b.ladder = lp.1
      ∧ b.rung_count = lp.2.rungs.length))).flatMap
    (fun lp => rungContribPairs program_id b lp.2.rungs)

/-- The contributions one document sends to bucket `b`, in order. -/
def docContribPairs (snapFS : FsPath → Option SnapshotJson) (b : BucketPath)
    (idx_path : FsPath) (likea : RevisionDoc) : List (String × Payload) :=
  if b.fam = famKeyOf snapFS idx_path then
    ladderContribPairs (likea.location ++ "/" ++ likea.revision) b likea.ladders
  else []

/-- The contributions of a document list to bucket `b`, in input order. -/
def allContribPairs (snapFS : FsPath → Option SnapshotJson) (b : BucketPath)
    (pdocs : List (FsPath × RevisionDoc)) : List (String × Payload) :=
  pdocs.flatMap (fun pd => docContribPairs snapFS b pd.1 pd.2)

theorem bucketFold_append (cur : Option ParamBucket) (xs ys : List (String × Payload)) :
    bucketFold cur (xs ++ ys) = bucketFold (bucketFold cur xs) ys :=
  List.foldl_append bucketStep cur xs ys

theorem rungContribPairs_cons (pid : String) (b : BucketPath) (pr : String × RungDoc)
    (rest : List (String × RungDoc)) :
    rungContribPairs pid b (pr :: rest)
      = rungContribPairs pid b [pr] ++ rungContribPairs pid b rest := by
  by_cases h : (b.rung_no = (_parse_rung_no pr.1).getD (-1)
      ∧ b.struct_hash = pr.2.structural_hash ∧ b.param_hash = pr.2.parameter_hash) <;>
    simp [rungContribPairs, List.filter_cons, h]

theorem ladderContribPairs_cons (pid : String) (b : BucketPath) (lp : String × LadderDoc)
    (rest : List (String × LadderDoc)) :
    ladderContribPairs pid b (lp :: rest)
      = ladderContribPairs pid b [lp] ++ ladderContribPairs pid b rest := by
  by_cases h : (b.ladder = lp.1 ∧ b.rung_count = lp.2.rungs.length) <;>
    simp [ladderContribPairs, List.filter_cons, h]

theorem lr_chain_getD (m : List (Int × RungNoEntry)) (x : Int) (sh ph : Option String) :
    lookupA ((lookupA ((lookupA m x).getD emptyRungNoEntry).revisions sh).getD
        emptyStructBucket).parameters ph
      = (lookupA m x).bind (fun rne => (lookupA rne.revisions sh).bind (fun sb =>
          lookupA sb.parameters ph)) := by
  cases h1 : lookupA m x with
  | none => simp [emptyRungNoEntry, emptyStructBucket, lookupA]
  | some rne =>
    simp only [Option.getD_some, Option.some_bind]
    cases h2 : lookupA rne.revisions sh with
    | none => simp [emptyStructBucket, lookupA]
    | some sb => simp

theorem processRungPair_lr (pid : String) (lad_rev : LadRevEntry) (pr : String × RungDoc)
    (b : BucketPath) :
    lrBucket (processRungPair pid lad_rev pr) b
      = bucketFold (lrBucket lad_rev b) (rungContribPairs pid b [pr]) := by
  by_cases hr : b.rung_no = (_parse_rung_no pr.1).getD (-1)
  · by_cases hs : b.struct_hash = pr.2.structural_hash
    · by_cases hp : b.param_hash = pr.2.parameter_hash
      · have hc : rungContribPairs pid b [pr] = [(pid, payloadOf pr.2)] := by
          simp [rungContribPairs, hr, hs, hp]
        rw [hc]
        show (lookupA (updGet lad_rev.rungs ((_parse_rung_no pr.1).getD (-1))
            emptyRungNoEntry _) b.rung_no).bind _ = _
        rw [lookupA_updGet, if_pos hr]
        simp only [Option.some_bind]
        rw [lookupA_updGet, if_pos hs]
        simp only [Option.some_bind]
        rw [lookupA_updGet, if_pos hp]
        rw [lrBucket, lr_chain_getD, hr, hs, hp]
        simp [bucketFold, bucketStep]
      · have hc : rungContribPairs pid b [pr] = [] := by
          simp [rungContribPairs, hp]
        rw [hc]
        show (lookupA (updGet lad_rev.rungs ((_parse_rung_no pr.1).getD (-1))
            emptyRungNoEntry _) b.rung_no).bind _ = _
        rw [lookupA_updGet, if_pos hr]
        simp only [Option.some_bind]
        rw [lookupA_updGet, if_pos hs]
        simp only [Option.some_bind]
        rw [lookupA_updGet, if_neg hp]
        rw [lrBucket, lr_chain_getD, hr, hs]
        simp [bucketFold]
    · have hc : rungContribPairs pid b [pr] = [] := by
        simp [rungContribPairs, hs]
      rw [hc]
      show (lookupA (updGet lad_rev.rungs ((_parse_rung_no pr.1).getD (-1))
          emptyRungNoEntry _) b.rung_no).bind _ = _
      rw [lookupA_updGet, if_pos hr]
      simp only [Option.some_bind]
      rw [lookupA_updGet, if_neg hs]
      rw [lrBucket]
      cases h1 : lookupA lad_rev.rungs ((_parse_rung_no pr.1).getD (-1)) with
      | none =>
        rw [hr, h1]
        simp [emptyRungNoEntry, lookupA, bucketFold]
      | some rne =>
        rw [hr, h1]
        simp [bucketFold]
  · have hc : rungContribPairs pid b [pr] = [] := by
      simp [rungContribPairs, hr]
    rw [hc]
    show (lookupA (updGet lad_rev.rungs ((_parse_rung_no pr.1).getD (-1))
        emptyRungNoEntry _) b.rung_no).bind _ = _
    rw [lookupA_updGet, if_neg hr]
    rw [lrBucket]
    simp [bucketFold]

theorem foldl_processRungPair (pid : String) (rungs : List (String × RungDoc))
    (lad_rev : LadRevEntry) (b : BucketPath) :
    lrBucket (rungs.foldl (processRungPair pid) lad_rev) b
      = bucketFold (lrBucket lad_rev b) (rungContribPairs pid b rungs) := by
  induction rungs generalizing lad_rev with
  | nil => simp [rungContribPairs, bucketFold]
  | cons pr rest ih =>
    rw [List.foldl_cons, ih, rungContribPairs_cons, bucketFold_append, processRungPair_lr]

theorem lrBucket_programs (lad_rev : LadRevEntry) (ps : List String) (b : BucketPath) :
    lrBucket { lad_rev with programs := ps } b = lrBucket lad_rev b := rfl

theorem fam_chain_getD (m : List (String × LadderAgg)) (lad : String) (rc : Nat)
    (b : BucketPath) :
    lrBucket ((lookupA ((lookupA m lad).getD emptyLadderAgg).revisions rc).getD
        emptyLadRevEntry) b
      = (lookupA m lad).bind (fun lagg => (lookupA lagg.revisions rc).bind (fun lrev =>
          lrBucket lrev b)) := by
  cases h1 : lookupA m lad with
  | none => simp [emptyLadderAgg, emptyLadRevEntry, lookupA, lrBucket]
  | some lagg =>
    simp only [Option.getD_some, Option.some_bind]
    cases h2 : lookupA lagg.revisions rc with
    | none => simp [emptyLadRevEntry, lookupA, lrBucket]
    | some lrev => simp

theorem processLadderPair_fam (pid : String) (fam : Family) (lp : String × LadderDoc)
    (b : BucketPath) :
    famBucket (processLadderPair pid fam lp) b
      = bucketFold (famBucket fam b) (ladderContribPairs pid b [lp]) := by
  by_cases hl : b.ladder = lp.1
  · by_cases hc : b.rung_count = lp.2.rungs.length
    · have hcontrib : ladderContribPairs pid b [lp] = rungContribPairs pid b lp.2.rungs := by
        simp [ladderContribPairs, hl, hc]
      rw [hcontrib]
      show (lookupA (updGet fam.ladders lp.1 emptyLadderAgg _) b.ladder).bind _
          = bucketFold ((lookupA fam.ladders b.ladder).bind _) _
      rw [lookupA_updGet, if_pos hl]
      simp only [Option.some_bind]
      rw [lookupA_updGet, if_pos hc]
      simp only [Option.some_bind]
      rw [foldl_processRungPair, lrBucket_programs, fam_chain_getD, ← hl, ← hc]
    · have hcontrib : ladderContribPairs pid b [lp] = [] := by
        simp [ladderContribPairs, hc]
      rw [hcontrib]
      show (lookupA (updGet fam.ladders lp.1 emptyLadderAgg _) b.ladder).bind _
          = bucketFold ((lookupA fam.ladders b.ladder).bind _) _
      rw [lookupA_updGet, if_pos hl]
      simp only [Option.some_bind]
      rw [lookupA_updGet, if_neg hc]
      rw [hl]
      cases h1 : lookupA fam.ladders lp.1 with
      | none => simp [emptyLadderAgg, lookupA, bucketFold]
      | some lagg => simp [bucketFold]
  · have hcontrib : ladderContribPairs pid b [lp] = [] := by
      simp [ladderContribPairs, hl]
    rw [hcontrib]
    show (lookupA (updGet fam.ladders lp.1 emptyLadderAgg _) b.ladder).bind _
        = bucketFold ((lookupA fam.ladders b.ladder).bind _) _
    rw [lookupA_updGet, if_neg hl]
    simp [bucketFold]

theorem foldl_processLadderPair (pid : String) (ladders : List (String × LadderDoc))
    (fam : Family) (b : BucketPath) :
    famBucket (ladders.foldl (processLadderPair pid) fam) b
      = bucketFold (famBucket fam b) (ladderContribPairs pid b ladders) := by
  induction ladders generalizing fam with
  | nil => simp [ladderContribPairs, bucketFold]
  | cons lp rest ih =>
    rw [List.foldl_cons, ih, ladderContribPairs_cons, bucketFold_append,
      processLadderPair_fam]

theorem famBucket_meta (fam : Family) (ps : List String) (stats : List (String × SnapInfo))
    (b : BucketPath) :
    famBucket { fam with programs := ps, program_stats := stats } b = famBucket fam b := rfl

theorem processDoc_bucket (snapFS : FsPath → Option SnapshotJson) (st : Families)
    (idx_path : FsPath) (likea : RevisionDoc) (b : BucketPath) :
    lookupBucket (processDoc snapFS st idx_path likea) b
      = bucketFold (lookupBucket st b) (docContribPairs snapFS b idx_path likea) := by
  by_cases hk : b.fam = famKeyOf snapFS idx_path
  · have hcontrib : docContribPairs snapFS b idx_path likea
        = ladderContribPairs (likea.location ++ "/" ++ likea.revision) b likea.ladders := by
      simp [docContribPairs, hk]
    rw [hcontrib]
    show (lookupA (updGet st (famKeyOf snapFS idx_path) (emptyFamily _) _) b.fam).bind _
        = bucketFold ((lookupA st b.fam).bind _) _
    rw [lookupA_updGet, if_pos hk]
    simp only [Option.some_bind]
    rw [foldl_processLadderPair, famBucket_meta, hk]
    cases h1 : lookupA st (famKeyOf snapFS idx_path) with
    | none => simp [emptyFamily, famBucket, lookupA]
    | some fam => simp
  · have hcontrib : docContribPairs snapFS b idx_path likea = [] := by
      simp [docContribPairs, hk]
    rw [hcontrib]
    show (lookupA (updGet st (famKeyOf snapFS idx_path) (emptyFamily _) _) b.fam).bind _
        = bucketFold ((lookupA st b.fam).bind _) _
    rw [lookupA_updGet, if_neg hk]
    simp [bucketFold]

theorem buildFamiliesPure_bucket (snapFS : FsPath → Option SnapshotJson)
    (pdocs : List (FsPath × RevisionDoc)) (st : Families) (b : BucketPath) :
    lookupBucket (pdocs.foldl (fun st pd => processDoc snapFS st pd.1 pd.2) st) b
      = bucketFold (lookupBucket st b) (allContribPairs snapFS b pdocs) := by
  induction pdocs generalizing st with
  | nil => simp [allContribPairs, bucketFold]
  | cons pd rest ih =>
    rw [List.foldl_cons, ih]
    have : allContribPairs snapFS b (pd :: rest)
        = docContribPairs snapFS b pd.1 pd.2 ++ allContribPairs snapFS b rest := by
      simp [allContribPairs]
    rw [this, bucketFold_append, processDoc_bucket]

theorem bucketFold_example (cs : List (String × Payload)) (cur : Option ParamBucket) :
    (bucketFold cur cs).map ParamBucket.example_payload
      = (cur.map ParamBucket.example_payload).elim
          (((cs.map Prod.snd).head?).map some)
          (fun ex => some (ex.or ((cs.map Prod.snd).head?))) := by
  induction cs generalizing cur with
  | nil =>
    cases cur with
    | none => simp [bucketFold]
    | some pb => simp [bucketFold]
  | cons c rest ih =>
    have hstep : bucketFold cur (c :: rest) = bucketFold (bucketStep cur c) rest := by
      simp [bucketFold]
    rw [hstep, ih]
    cases cur with
    | none => simp [bucketStep, emptyParamBucket]
    | some pb =>
      cases hpe : pb.example_payload with
      | none => simp [bucketStep, hpe]
      | some e => simp [bucketStep, hpe]

/-! ### Claim C8 -/

/-- Claim C8: after the whole document fold, every parameter bucket equals
the fold of its contribution sequence (program ids and payloads in input
list order); in particular its example payload is exactly the payload of
the first contribution that reached the bucket — later contributors never
replace it, they only enter the program set through `setAdd`. -/
theorem claim_C8 :
    ∀ (snapFS : FsPath → Option SnapshotJson) (pdocs : List (FsPath × RevisionDoc))
      (b : BucketPath),
      lookupBucket (buildFamiliesPure snapFS pdocs) b
          = bucketFold none (allContribPairs snapFS b pdocs)
      ∧ (∀ pb, lookupBucket (buildFamiliesPure snapFS pdocs) b = some pb →
          pb.example_payload = ((allContribPairs snapFS b pdocs).map Prod.snd).head?) := by
  intro snapFS pdocs b
  have hfold : lookupBucket (buildFamiliesPure snapFS pdocs) b
      = bucketFold none (allContribPairs snapFS b pdocs) := by
    rw [buildFamiliesPure, buildFamiliesPure_bucket]
    simp [lookupBucket, lookupA]
  refine ⟨hfold, ?_⟩
  intro pb hpb
  have hex := bucketFold_example (allContribPairs snapFS b pdocs) none
  rw [← hfold, hpb] at hex
  simp only [Option.map_some, Option.map_none, Option.elim] at hex
  cases hh : ((allContribPairs snapFS b pdocs).map Prod.snd).head? with
  | none => rw [hh] at hex; simp at hex
  | some pay =>
    rw [hh] at hex
    simp at hex
    rw [hex]

/-- The snapshot filesystem of the C8 witness: every sidecar missing. -/
def C8snapFS : FsPath → Option SnapshotJson := fun _ => none

/-- The one-document input of the C8 witness: one ladder, one rung. -/
def C8pdocs : List (FsPath × RevisionDoc) :=
  [(["site", "rev1", "likeaversion.json"],
    { location := "site", revision := "rev1", path := none,
      ladders := [("LAD2",
        { ladder_structural_hash := none, ladder_parameter_hash := none,
          rungs := [("0000",
            { raw := "XIC A", tokens := ["XIC", "A"],
              structural_tokens := ["XIC", "A"], parameter_tokens := [],
              runtime_tokens := [], structural_hash := some "aaaa1111",
              parameter_hash := some "bbbb2222" })] })] })]

/-- The bucket coordinates of the C8 witness's only rung. -/
def C8bucket : BucketPath :=
  { fam := (none, none), ladder := "LAD2", rung_count := 1, rung_no := 0,
    struct_hash := some "aaaa1111", param_hash := some "bbbb2222" }

/-- Claim C8 witness: with one document of one ladder and one rung, the
bucket at its coordinates exists, and `claim_C8` applied there identifies
its example payload with the head of the contribution payloads. -/
theorem claim_C8_witness :
    (lookupBucket (buildFamiliesPure C8snapFS C8pdocs) C8bucket).isSome
    ∧ (∀ pb, lookupBucket (buildFamiliesPure C8snapFS C8pdocs) C8bucket = some pb →
        pb.example_payload = ((allContribPairs C8snapFS C8bucket C8pdocs).map Prod.snd).head?) :=
  ⟨by decide, (claim_C8 C8snapFS C8pdocs C8bucket).2⟩

end PLC
